import Mathlib

/-!
# Finance-Advisor-AI — verification of the retrieval-augmented chat pipeline

Shallow embedding of the repository's chat-advisor pipeline.  The repository
ships the React frontend (`frontend/src/components/...`); the Python backend
(FallbackAdvisor, VectorIndex, DocumentIngestor, GenerativeBackend,
ConversationStore) is not among the staged files, so those components are
modelled from the specification (each such definition says so in its doc
comment).  Frontend handlers (`DocumentManager.handleFileUpload`,
`ChatInterface.handleSendMessage`) are translated from the TypeScript source.
-/

namespace FinAdvisor

/-! ## FallbackAdvisor (spec §4.7) -/

/-- Modelled from the spec: the FallbackAdvisor topics — "classifies the query
by keyword/topic (savings, investment, tax, debt, budgeting, other)".  The
backend module implementing FallbackAdvisor is not among the staged files. -/
inductive Topic where
  | savings
  | investment
  | tax
  | debt
  | budgeting
  | other
deriving DecidableEq

/-- The characters of `s`, lower-cased (the model of `toLowerCase` /
`lower()` on the texts the pipeline compares case-insensitively). -/
def lowerChars (s : String) : List Char :=
  s.toList.map Char.toLower

/-- `true` when `kw` occurs as a contiguous substring of the (already
lower-cased) query characters `q`. -/
def containsKw (q : List Char) (kw : String) : Bool :=
  decide (kw.toList <:+: q)

/-- Modelled from the spec: keyword lists for the topic classifier, echoing
the canned-response topics the repository documents (savings, budgeting,
investment, debt management, tax planning). -/
def topicKeywords : Topic → List String
  | .savings => ["save", "saving", "emergency fund"]
  | .investment => ["invest", "stock", "mutual fund", "sip"]
  | .tax => ["tax"]
  | .debt => ["debt", "loan", "emi", "credit"]
  | .budgeting => ["budget"]
  | .other => []

/-- Modelled from the spec: classify a query by keyword into a topic; a query
matching no keyword list lands in `other`. -/
def classify (query : String) : Topic :=
  let q := lowerChars query
  if (topicKeywords .savings).any (containsKw q) then .savings
  else if (topicKeywords .investment).any (containsKw q) then .investment
  else if (topicKeywords .tax).any (containsKw q) then .tax
  else if (topicKeywords .debt).any (containsKw q) then .debt
  else if (topicKeywords .budgeting).any (containsKw q) then .budgeting
  else .other

/-- A structured fallback answer: canned text plus follow-up suggestions. -/
structure Advice where
  text : String
  suggestions : List String
deriving DecidableEq

/-- Modelled from the spec: the canned, topic-specific structured answers of
the FallbackAdvisor.  Every branch returns literal non-empty text. -/
def cannedAdvice : Topic → Advice
  | .savings =>
      ⟨"Build an emergency fund of 3 to 6 months of expenses, automate a monthly transfer to savings, and review recurring subscriptions you can cut.",
       ["How much should I keep in an emergency fund?", "What savings rate should I aim for?"]⟩
  | .investment =>
      ⟨"Start with low-cost diversified index funds, invest regularly through systematic plans, and keep a long horizon instead of timing the market.",
       ["What are good investment options for beginners?", "How do I start a SIP?"]⟩
  | .tax =>
      ⟨"Use the deductions available to you, keep records of eligible expenses, and plan contributions to tax-advantaged accounts before the year ends.",
       ["Which tax deductions apply to me?", "How can I reduce taxable income?"]⟩
  | .debt =>
      ⟨"List debts by interest rate, pay the costliest first while making minimum payments on the rest, and avoid taking new high-interest credit.",
       ["Should I consolidate my loans?", "How do I pay off credit card debt faster?"]⟩
  | .budgeting =>
      ⟨"Track a month of spending, then split income using a simple rule such as 50 percent needs, 30 percent wants and 20 percent savings.",
       ["Help me build a monthly budget", "What budgeting rule should I follow?"]⟩
  | .other =>
      ⟨"I can help with savings, investments, taxes, debt and budgeting. Tell me a bit more about your financial goal and I will give concrete steps.",
       ["How can I save more money?", "What are good investment options?"]⟩

/-- Modelled from the spec: `FallbackAdvisor` — a deterministic, total,
rule-based answer generator: classify the query, return the topic's canned
structured answer. -/
def fallbackAdvisor (query : String) : Advice :=
  cannedAdvice (classify query)

/-! ## Vectors and VectorIndex (spec §4.3)

Vectors are modelled over `ℚ`.  Cosine similarity over the reals orders
entries exactly as the square-root-free rational key
`sign(dot q v) * (dot q v)^2 / (normSq q * normSq v)` does, so the model
sorts on that key (negated, so that ascending key = descending similarity);
euclidean distance orders entries exactly as squared euclidean distance
does, which is the second key. -/

/-- A chunk embedding: a fixed-dimension numeric array, modelled as a list of
rationals. -/
abbrev Vec := List ℚ

/-- Dot product of two vectors. -/
def dot (a b : Vec) : ℚ :=
  (List.zipWith (· * ·) a b).sum

/-- Squared euclidean norm. -/
def normSq (a : Vec) : ℚ := dot a a

/-- Squared euclidean distance between two vectors. -/
def distSq (a b : Vec) : ℚ :=
  normSq (List.zipWith (· - ·) a b)

/-- `x * |x|`: a strictly monotone, sign-preserving square. -/
def signedSq (x : ℚ) : ℚ := x * |x|

/-- Modelled from the spec: a rational sort key that orders entries exactly
as real cosine similarity does (zero vectors, whose cosine similarity is
conventionally zero, get key zero). -/
def cosKey (q v : Vec) : ℚ :=
  if normSq q * normSq v = 0 then 0
  else signedSq (dot q v) / (normSq q * normSq v)

/-- An entry of the VectorIndex: the chunk id, the id of the document the
chunk belongs to, and the chunk's embedding vector (spec §3: IndexEntry is
`chunk_id` plus `vector`; the chunk carries its `document_id`). -/
structure IndexEntry where
  docId : ℕ
  chunkId : ℕ
  vec : Vec
deriving DecidableEq

/-- The two similarity modes of `search` (spec §4.3). -/
inductive Similarity where
  | cosine
  | euclidean
deriving DecidableEq

/-- The ascending sort key of an entry for a query: negated cosine key
(descending similarity) or squared euclidean distance (ascending
distance). -/
def sortKey (m : Similarity) (q : Vec) (e : IndexEntry) : ℚ :=
  match m with
  | .cosine => - cosKey q e.vec
  | .euclidean => distSq q e.vec

/-- The search result order: strictly better score first, ties broken by the
smaller chunk id (spec §4.3). -/
def entryLE (m : Similarity) (q : Vec) (e₁ e₂ : IndexEntry) : Prop :=
  sortKey m q e₁ < sortKey m q e₂ ∨
    (sortKey m q e₁ = sortKey m q e₂ ∧ e₁.chunkId ≤ e₂.chunkId)

instance (m : Similarity) (q : Vec) : DecidableRel (entryLE m q) := fun _ _ => by
  unfold entryLE; infer_instance

instance (m : Similarity) (q : Vec) : IsTotal IndexEntry (entryLE m q) := by
  constructor
  intro a b
  rcases lt_trichotomy (sortKey m q a) (sortKey m q b) with h | h | h
  · exact Or.inl (Or.inl h)
  · rcases Nat.le_total a.chunkId b.chunkId with h2 | h2
    · exact Or.inl (Or.inr ⟨h, h2⟩)
    · exact Or.inr (Or.inr ⟨h.symm, h2⟩)
  · exact Or.inr (Or.inl h)

instance (m : Similarity) (q : Vec) : IsTrans IndexEntry (entryLE m q) := by
  constructor
  intro a b c hab hbc
  rcases hab with h | ⟨h, h2⟩ <;> rcases hbc with g | ⟨g, g2⟩
  · exact Or.inl (h.trans g)
  · exact Or.inl (g ▸ h)
  · exact Or.inl (h ▸ g)
  · exact Or.inr ⟨h.trans g, h2.trans g2⟩

/-- Modelled from the spec: `VectorIndex.search(query_vector, k, similarity)`
— brute-force comparison against all stored entries, ordered by decreasing
similarity (cosine) or increasing distance (euclidean), ties broken by the
smaller chunk id, truncated to at most `k` results. -/
def search (entries : List IndexEntry) (q : Vec) (k : ℕ) (m : Similarity) :
    List IndexEntry :=
  (List.insertionSort (entryLE m q) entries).take k

/-! ## Document store and `delete_document` (spec §3, §4.3, §6) -/

/-- A live document record: its id and the ids of its chunks, in ordinal
order (spec §3: Document holds `chunk_ids`). -/
structure DocRec where
  id : ℕ
  chunkIds : List ℕ
deriving DecidableEq

/-- Modelled from the spec: deterministic chunk ids, `hash(document_id,
ordinal)`, modelled with the injective pairing function. -/
def hashChunkId (docId ordinal : ℕ) : ℕ := Nat.pair docId ordinal

/-- The persisted pipeline state a chat request reads: the document table and
the vector index. -/
structure DocStore where
  docs : List DocRec
  index : List IndexEntry
deriving DecidableEq

/-- The index entries ingestion adds for one document: one entry per chunk
ordinal, with the deterministic chunk id. -/
def ingestEntries (docId : ℕ) (vecs : List Vec) : List IndexEntry :=
  (List.range vecs.length).map (fun i => ⟨docId, hashChunkId docId i, vecs.getD i []⟩)

/-- Modelled from the spec: successful ingestion — create the document record
with its ordinal-ordered chunk ids and add every chunk vector to the index. -/
def ingestDoc (docId : ℕ) (vecs : List Vec) (s : DocStore) : DocStore :=
  ⟨⟨docId, (List.range vecs.length).map (hashChunkId docId)⟩ :: s.docs,
   ingestEntries docId vecs ++ s.index⟩

/-- Modelled from the spec: `delete_document(document_id)` — destroys the
document and removes all matching index entries (cascade, spec §3/§4.3). -/
def deleteDoc (docId : ℕ) (s : DocStore) : DocStore :=
  ⟨s.docs.filter (fun d => d.id ≠ docId),
   s.index.filter (fun e => e.docId ≠ docId)⟩

/-- The states reachable from the empty store by ingestion and deletion
(searches do not change state). -/
inductive Reach : DocStore → Prop
  | init : Reach ⟨[], []⟩
  | ingest (docId : ℕ) (vecs : List Vec) (s : DocStore) :
      Reach s → Reach (ingestDoc docId vecs s)
  | delete (docId : ℕ) (s : DocStore) :
      Reach s → Reach (deleteDoc docId s)

/-- The §3 invariant for one entry: some live document owns the entry's
chunk. -/
def liveChunkOk (s : DocStore) (e : IndexEntry) : Prop :=
  ∃ d ∈ s.docs, d.id = e.docId ∧ e.chunkId ∈ d.chunkIds

/-- The §3 consistency invariant: every chunk id the VectorIndex knows is
reachable from a live (non-deleted) document. -/
def indexConsistent (s : DocStore) : Prop :=
  ∀ e ∈ s.index, liveChunkOk s e

/-! ## DocumentIngestor chunking (spec §4.1) -/

/-- Modelled from the spec: the sliding-window chunker, hard-cut form —
window of `cs` characters, consecutive windows sharing `ov` characters, so
each step advances by `cs - ov`.  `fuel` bounds the recursion; `chunkText`
supplies fuel that suffices whenever `ov < cs`. -/
def chunkWindows (fuel cs ov : ℕ) (s : List Char) : List (List Char) :=
  match fuel with
  | 0 => [s]
  | fuel + 1 =>
    if s.length ≤ cs then [s]
    else s.take cs :: chunkWindows fuel cs ov (s.drop (cs - ov))

/-- Modelled from the spec: chunk a document's normalized text with a sliding
window of `cs` characters and `ov` characters of overlap. -/
def chunkText (cs ov : ℕ) (s : List Char) : List (List Char) :=
  chunkWindows s.length cs ov s

/-- Removing the overlapping regions and concatenating: keep the first chunk
whole and drop the first `ov` characters of every later chunk. -/
def reconstruct (ov : ℕ) : List (List Char) → List Char
  | [] => []
  | c :: rest => c ++ (rest.map (List.drop ov)).flatten

/-! ## GenerativeBackend with retry and circuit breaker (spec §4.6) -/

/-- What the network returns for one generation attempt. -/
inductive ApiOutcome where
  | ok (text : String)
  | quota
  | transient
  | fatal
deriving DecidableEq

/-- Modelled from the spec: the explicit retry policy object — attempt
ceiling, circuit-breaker threshold of consecutive quota errors, and cooldown
length. -/
structure RetryPolicy where
  maxAttempts : ℕ
  quotaThreshold : ℕ
  cooldown : ℕ
deriving DecidableEq

/-- The circuit-breaker state: how many consecutive quota errors have been
seen, and the instant until which the breaker is open (0 = never opened). -/
structure BreakerState where
  consecutiveQuota : ℕ
  openUntil : ℕ
deriving DecidableEq

/-- The breaker is open at `now` when the cooldown has not yet elapsed. -/
def breakerOpen (st : BreakerState) (now : ℕ) : Bool :=
  now < st.openUntil

/-- The classified result of one `GenerativeBackend` call. -/
inductive GenOutcome where
  | success (text : String)
  | quotaFailed
  | transientFailed
  | fatalFailed
  | skipped
deriving DecidableEq

/-- A call's result together with how many network attempts it made
(`skipped` makes zero). -/
structure GenResult where
  outcome : GenOutcome
  attempts : ℕ
deriving DecidableEq

/-- Modelled from the spec: the retry loop — transient errors retry up to the
attempt ceiling, any other outcome settles the call at once.  Returns the
settling outcome and the number of attempts made; an exhausted ceiling
settles as transient. -/
def runAttempts (net : ℕ → ApiOutcome) (fuel i : ℕ) : ApiOutcome × ℕ :=
  match fuel with
  | 0 => (.transient, 0)
  | fuel + 1 =>
    match net i with
    | .transient =>
        let r := runAttempts net fuel (i + 1)
        (r.1, r.2 + 1)
    | o => (o, 1)

/-- Modelled from the spec: one `GenerativeBackend` call at instant `now`.
If the breaker is open the call is skipped with no network attempt.
Otherwise the retry loop runs; a quota error does not retry, increments the
consecutive-quota count and, at the threshold, opens the breaker for
`cooldown`; any non-quota settling outcome resets the count. -/
def callBackend (p : RetryPolicy) (st : BreakerState) (now : ℕ)
    (net : ℕ → ApiOutcome) : GenResult × BreakerState :=
  if breakerOpen st now then (⟨.skipped, 0⟩, st)
  else
    let r := runAttempts net p.maxAttempts 0
    match r.1 with
    | .ok t => (⟨.success t, r.2⟩, ⟨0, st.openUntil⟩)
    | .quota =>
        let c := st.consecutiveQuota + 1
        (⟨.quotaFailed, r.2⟩,
         ⟨c, if p.quotaThreshold ≤ c then now + p.cooldown else st.openUntil⟩)
    | .transient => (⟨.transientFailed, r.2⟩, ⟨0, st.openUntil⟩)
    | .fatal => (⟨.fatalFailed, r.2⟩, ⟨0, st.openUntil⟩)

/-- A run of consecutive backend calls at the given instants: the list of
results and the final breaker state. -/
def runCalls (p : RetryPolicy) (net : ℕ → ApiOutcome) :
    BreakerState → List ℕ → List GenResult × BreakerState
  | st, [] => ([], st)
  | st, t :: ts =>
      let r := callBackend p st t net
      let rest := runCalls p net r.2 ts
      (r.1 :: rest.1, rest.2)

/-- A network that answers every attempt with a quota error. -/
def quotaNet : ℕ → ApiOutcome := fun _ => .quota

/-! ## ConversationStore and the chat turn (spec §4.4, §4.7, §7) -/

/-- A message role. -/
inductive Role where
  | user
  | assistant
deriving DecidableEq

/-- A conversation message. -/
structure Msg where
  role : Role
  text : String
deriving DecidableEq

/-- Modelled from the spec: the ConversationStore — per-session ordered
message history, keyed by session id. -/
def ConvStore := ℕ → List Msg

/-- The store with no sessions. -/
def emptyConvStore : ConvStore := fun _ => []

/-- Modelled from the spec: `append(session_id, message)` — append-only, one
session at a time. -/
def appendMsg (st : ConvStore) (sid : ℕ) (m : Msg) : ConvStore :=
  fun s => if s = sid then st s ++ [m] else st s

/-- `get_history(session_id)`: the session's ordered message list. -/
def history (st : ConvStore) (sid : ℕ) : List Msg := st sid

/-- How a chat turn resolved: the two user-facing outcomes of spec §7. -/
inductive TurnOutcome where
  | success (text : String)
  | fallback (text : String)
deriving DecidableEq

/-- The reply text a turn outcome carries. -/
def replyOf : TurnOutcome → String
  | .success t => t
  | .fallback t => t

/-- Modelled from the spec: one chat turn of the orchestrator (state machine
of §4.7).  The backend is called through the circuit breaker; a successful
generation resolves to `SUCCESS`; every generation-time failure (quota,
exhausted transient retries, fatal, circuit-open skip) resolves to
`FALLBACK` with the FallbackAdvisor's text; the turn — user message and the
resolved reply — is then appended to the ConversationStore (`RECORDED`). -/
def runChatTurn (p : RetryPolicy) (bst : BreakerState) (now : ℕ)
    (net : ℕ → ApiOutcome) (store : ConvStore) (sid : ℕ) (query : String) :
    TurnOutcome × ConvStore × BreakerState :=
  let r := callBackend p bst now net
  let out : TurnOutcome :=
    match r.1.outcome with
    | .success t => .success t
    | _ => .fallback (fallbackAdvisor query).text
  let store' := appendMsg (appendMsg store sid ⟨.user, query⟩) sid
    ⟨.assistant, replyOf out⟩
  (out, store', r.2)

/-! ## EmbeddingProvider (spec §4.2) -/

/-- The fixed embedding dimension `d` of the index (spec §3: dimension is
constant for the lifetime of one index). -/
def embedDim : ℕ := 768

/-- The ambient state of one provider call — wall-clock instant and rng
seed.  The spec requires the output to be independent of it. -/
structure CallCtx where
  timestamp : ℕ
  rngSeed : ℕ
deriving DecidableEq

/-- Modelled from the spec: the EmbeddingProvider — maps a text and a model
version to a vector of fixed dimension `embedDim`, as a pure function of the
text and the version alone; the call context does not enter the result. -/
def embed (_ctx : CallCtx) (version : ℕ) (text : String) : Vec :=
  (List.range embedDim).map
    (fun i =>
      (((text.toList.map Char.toNat).foldl
        (fun acc c => (acc * 31 + c + version) % 1000003) (i + 1) : ℕ) : ℚ))

/-! ## Frontend: DocumentManager.handleFileUpload (C7, C8) -/

/-- `allowedTypes` of `DocumentManager.handleFileUpload`. -/
def allowedTypes : List String := ["pdf", "docx", "xlsx", "xls", "txt"]

/-- Split a character list at every occurrence of `sep`, with the JavaScript
`split` semantics: the empty text yields one empty piece, a trailing
separator yields a final empty piece. -/
def splitOnChar (sep : Char) : List Char → List (List Char)
  | [] => [[]]
  | c :: cs =>
    let r := splitOnChar sep cs
    if c = sep then [] :: r
    else
      match r with
      | [] => [[c]]
      | h :: t => (c :: h) :: t

/-- `file.name.split(.).pop()?.toLowerCase()`: the text after the last dot,
lower-cased (a dotless name yields the whole name, a trailing dot yields the
empty string, exactly as the JavaScript does). -/
def fileExt (name : String) : String :=
  String.mk ((((splitOnChar '.' name.toList).getLast? ).getD []).map Char.toLower)

/-- The 10MB upload ceiling of `handleFileUpload`. -/
def maxUploadBytes : ℕ := 10 * 1024 * 1024

/-- What the upload handler does with a chosen file. -/
inductive UploadAction where
  | rejectType
  | rejectSize
  | sendUpload
deriving DecidableEq

/-- `DocumentManager.handleFileUpload` validation, from the source: first the
extension must be non-empty and among `allowedTypes`, then the byte size must
not exceed 10MB; only then is the upload request issued. -/
def handleFileUpload (name : String) (size : ℕ) : UploadAction :=
  let ext := fileExt name
  if ext = "" ∨ ¬ ext ∈ allowedTypes then .rejectType
  else if maxUploadBytes < size then .rejectSize
  else .sendUpload

/-! ## Frontend: ChatInterface.handleSendMessage (C10) -/

/-- A rendered chat message of the interface (id is the `Date.now()`
stamp). -/
structure UiMessage where
  id : ℕ
  role : Role
  content : String
deriving DecidableEq

/-- The component state `handleSendMessage` reads and writes. -/
structure ChatUiState where
  messages : List UiMessage
  inputMessage : String
  isLoading : Bool
deriving DecidableEq

/-- The chat request `sendChatMessage` would receive. -/
structure ChatRequest where
  message : String
  documentIds : List String
deriving DecidableEq

/-- `!s.trim()` of the source: every character of the input is whitespace. -/
def isBlank (s : String) : Bool :=
  s.toList.all Char.isWhitespace

/-- The synchronous head of `ChatInterface.handleSendMessage`, from the
source: a blank input or an in-flight request returns at once (no state
change, no request); otherwise the user message is appended, the input
cleared, the loading flag set, and the request issued. -/
def handleSendMessage (st : ChatUiState) (now : ℕ) (selectedDocs : List String) :
    ChatUiState × Option ChatRequest :=
  if isBlank st.inputMessage = true ∨ st.isLoading = true then (st, none)
  else
    (⟨st.messages ++ [⟨now, .user, st.inputMessage⟩], "", true⟩,
     some ⟨st.inputMessage,
       if selectedDocs.length > 0 then selectedDocs else []⟩)

/-! ## Theorems -/

/-- Shared helper: every canned fallback answer has non-empty text and
non-empty suggestions. -/
theorem fallback_nonempty (q : String) :
    (fallbackAdvisor q).text ≠ "" ∧ (fallbackAdvisor q).suggestions ≠ [] := by
  unfold fallbackAdvisor
  cases classify q <;> exact ⟨by decide, by decide⟩

/-- C1: `FallbackAdvisor` is total — for every input query, including empty
or nonsensical text, it returns a non-empty response (with non-empty
follow-up suggestions) and never itself fails. -/
theorem fallbackAdvisor_total (q : String) :
    (fallbackAdvisor q).text ≠ "" ∧ (fallbackAdvisor q).suggestions ≠ [] :=
  fallback_nonempty q

/-- C2: `VectorIndex.search(q, k)` returns at most `k` entries, ordered by
decreasing similarity (cosine) or increasing distance (euclidean) with ties
broken by the smaller chunk id, and returns all stored entries without error
when the index holds no more than `k` of them. -/
theorem search_spec (entries : List IndexEntry) (q : Vec) (k : ℕ)
    (m : Similarity) :
    (search entries q k m).length ≤ k ∧
      List.Sorted (entryLE m q) (search entries q k m) ∧
      (entries.length ≤ k → (search entries q k m).Perm entries) := by
  refine ⟨?_, ?_, ?_⟩
  · simp [search, List.length_take]
  · exact List.Pairwise.sublist (List.take_sublist k _)
      (List.sorted_insertionSort (entryLE m q) entries)
  · intro hle
    have hperm := List.perm_insertionSort (entryLE m q) entries
    rw [search, List.take_of_length_le (by rw [hperm.length_eq]; exact hle)]
    exact hperm

/-- C3: in every reachable store the chunk ids the VectorIndex knows come
from live documents, and right after `delete_document(id)` no search, for
any query, any `k` and either similarity, returns a chunk of document
`id`. -/
theorem delete_consistency :
    (∀ s : DocStore, Reach s → indexConsistent s) ∧
      ∀ (docId : ℕ) (s : DocStore) (q : Vec) (k : ℕ) (m : Similarity),
        ∀ e ∈ search (deleteDoc docId s).index q k m, e.docId ≠ docId := by
  constructor
  · intro s hs
    induction hs with
    | init => intro e he; exact absurd he (List.not_mem_nil e)
    | ingest docId vecs s hs ih =>
      intro e he
      rcases List.mem_append.1 he with hnew | hold
      · obtain ⟨i, hi, rfl⟩ := List.mem_map.1 hnew
        exact ⟨⟨docId, (List.range vecs.length).map (hashChunkId docId)⟩,
          List.mem_cons_self _ _, rfl, List.mem_map_of_mem _ hi⟩
      · obtain ⟨d, hd, hid, hc⟩ := ih e hold
        exact ⟨d, List.mem_cons_of_mem _ hd, hid, hc⟩
    | delete docId s hs ih =>
      intro e he
      obtain ⟨hin, hne⟩ := List.mem_filter.1 he
      have hne' : e.docId ≠ docId := of_decide_eq_true hne
      obtain ⟨d, hd, hid, hc⟩ := ih e hin
      exact ⟨d, List.mem_filter.2 ⟨hd, decide_eq_true (hid ▸ hne')⟩, hid, hc⟩
  · intro docId s q k m e he
    have hsorted : e ∈ List.insertionSort (entryLE m q) (deleteDoc docId s).index :=
      (List.take_sublist k _).subset he
    have hidx : e ∈ (deleteDoc docId s).index :=
      (List.perm_insertionSort (entryLE m q) _).subset hsorted
    exact of_decide_eq_true (List.mem_filter.1 hidx).2

/-- Helper: the chunker returns a non-empty list whose first chunk holds at
least `ov` characters whenever the text does. -/
theorem chunkWindows_head_len (fuel cs ov : ℕ) (s : List Char) (hov : ov < cs)
    (hlen : ov ≤ s.length) :
    ∃ c rest, chunkWindows fuel cs ov s = c :: rest ∧ ov ≤ c.length := by
  cases fuel with
  | zero => exact ⟨s, [], rfl, hlen⟩
  | succ f =>
    by_cases h : s.length ≤ cs
    · exact ⟨s, [], by simp [chunkWindows, h], hlen⟩
    · refine ⟨s.take cs, chunkWindows f cs ov (s.drop (cs - ov)),
        by simp [chunkWindows, h], ?_⟩
      rw [List.length_take]
      exact le_min hov.le hlen

/-- Helper: with enough fuel, removing the overlaps and concatenating
reconstructs the text. -/
theorem reconstruct_chunkWindows (cs ov : ℕ) (hov : ov < cs) :
    ∀ (fuel : ℕ) (s : List Char), s.length ≤ fuel →
      reconstruct ov (chunkWindows fuel cs ov s) = s := by
  intro fuel
  induction fuel with
  | zero =>
    intro s hs
    have hnil : s = [] := List.eq_nil_of_length_eq_zero (Nat.le_zero.1 hs)
    subst hnil
    simp [chunkWindows, reconstruct]
  | succ f ih =>
    intro s hs
    by_cases h : s.length ≤ cs
    · simp [chunkWindows, h, reconstruct]
    · have hdrop : (s.drop (cs - ov)).length = s.length - (cs - ov) :=
        List.length_drop _ _
      have hts : (s.drop (cs - ov)).length ≤ f := by omega
      have hot : ov ≤ (s.drop (cs - ov)).length := by omega
      obtain ⟨c, rest, hcw, hoc⟩ :=
        chunkWindows_head_len f cs ov (s.drop (cs - ov)) hov hot
      have hrec := ih (s.drop (cs - ov)) hts
      rw [hcw] at hrec
      simp only [chunkWindows, if_neg h, hcw, reconstruct]
      have key : ((c :: rest).map (List.drop ov)).flatten =
          List.drop ov (reconstruct ov (c :: rest)) := by
        rw [reconstruct, List.drop_append_of_le_length hoc]
        simp
      rw [key, hrec, List.drop_drop]
      have hcs : cs - ov + ov = cs := by omega
      rw [hcs, List.take_append_drop]

/-- C5: for every document text and every `(chunk_size, overlap)` with
`overlap < chunk_size`, concatenating the chunks in ordinal order and
removing the overlapping regions reconstructs the text exactly. -/
theorem chunk_roundtrip (cs ov : ℕ) (hov : ov < cs) (s : List Char) :
    reconstruct ov (chunkText cs ov s) = s :=
  reconstruct_chunkWindows cs ov hov s.length s le_rfl

/-- C5 witness: round trip at `chunk_size = 5`, `overlap = 2` on a concrete
text. -/
theorem chunk_roundtrip_witness :
    reconstruct 2 (chunkText 5 2 ("savings plan 2026".toList)) =
      "savings plan 2026".toList :=
  chunk_roundtrip 5 2 (by decide) _

/-- C7 counterexample: the upload handler accepts an `.xls` file, whose
declared type is outside the set pdf, docx, xlsx, txt the claim states. -/
theorem upload_accepts_xls :
    handleFileUpload "report.xls" 1024 = .sendUpload ∧
      "xls" ∉ (["pdf", "docx", "xlsx", "txt"] : List String) := by
  decide

/-- C7 amended: document upload accepts exactly the declared types pdf, docx,
xlsx, xls and txt — the handler rejects with the unsupported-type error
precisely when the file extension is outside that set. -/
theorem upload_type_validation (name : String) (size : ℕ) :
    handleFileUpload name size = .rejectType ↔ fileExt name ∉ allowedTypes := by
  unfold handleFileUpload
  by_cases h : fileExt name = "" ∨ ¬ fileExt name ∈ allowedTypes
  · rw [if_pos h]
    refine iff_of_true rfl ?_
    rcases h with h | h
    · rw [h]; decide
    · exact h
  · rw [if_neg h]
    push_neg at h
    refine iff_of_false ?_ (not_not_intro h.2)
    split <;> simp

/-- C8 counterexample: an upload whose raw size exceeds the 10MB ceiling but
whose declared type is unsupported is rejected with the unsupported-type
error, not the size error the claim requires for every oversized upload. -/
theorem oversized_bad_type_rejected_as_type :
    handleFileUpload "malware.exe" (10 * 1024 * 1024 + 1) = .rejectType ∧
      maxUploadBytes < 10 * 1024 * 1024 + 1 ∧
      UploadAction.rejectType ≠ UploadAction.rejectSize := by
  decide

/-- C8 amended: every upload with a supported declared type whose raw byte
size exceeds the 10MB ceiling is rejected with the size error, based on the
raw byte size alone, before any upload request (and hence any text
extraction) is issued. -/
theorem upload_size_validation (name : String) (size : ℕ)
    (htype : fileExt name ∈ allowedTypes) (hsize : maxUploadBytes < size) :
    handleFileUpload name size = .rejectSize := by
  unfold handleFileUpload
  rw [if_neg, if_pos hsize]
  intro h
  rcases h with h | h
  · rw [h] at htype; exact absurd htype (by decide)
  · exact h htype

/-- C8 witness: a 10MB+1 pdf upload is rejected with the size error. -/
theorem upload_size_validation_witness :
    handleFileUpload "statement.pdf" 10485761 = .rejectSize :=
  upload_size_validation "statement.pdf" 10485761 (by decide) (by decide)

/-- Helper: with a positive attempt ceiling, a quota-answering network
settles the retry loop at once: one attempt, quota. -/
theorem runAttempts_quota (fuel i : ℕ) (h : 0 < fuel) :
    runAttempts quotaNet fuel i = (.quota, 1) := by
  cases fuel with
  | zero => exact absurd h (lt_irrefl 0)
  | succ f => rfl

/-- Helper: one backend call against a quota-answering network from a closed
breaker below the threshold: quota failure, one attempt, count bumped,
breaker still closed. -/
theorem callBackend_quota_below (p : RetryPolicy) (c t : ℕ)
    (hmax : 0 < p.maxAttempts) (hc : c + 1 < p.quotaThreshold) :
    callBackend p ⟨c, 0⟩ t quotaNet = (⟨.quotaFailed, 1⟩, ⟨c + 1, 0⟩) := by
  unfold callBackend
  rw [if_neg (by simp [breakerOpen]), runAttempts_quota _ _ hmax]
  have hth : ¬ p.quotaThreshold ≤ c + 1 := by omega
  simp [hth]

/-- Helper: a run of quota-answering calls that stays strictly below the
threshold returns all quota failures and leaves the breaker closed with the
bumped count. -/
theorem runCalls_quota_below (p : RetryPolicy) (hmax : 0 < p.maxAttempts) :
    ∀ (ts : List ℕ) (c : ℕ), c + ts.length < p.quotaThreshold →
      runCalls p quotaNet ⟨c, 0⟩ ts =
        (List.replicate ts.length ⟨.quotaFailed, 1⟩, ⟨c + ts.length, 0⟩) := by
  intro ts
  induction ts with
  | nil => intro c _; simp [runCalls]
  | cons t ts ih =>
    intro c h
    rw [runCalls]
    simp only [callBackend_quota_below p c t hmax (by simp at h; omega)]
    have htail := ih (c + 1) (by simp at h ⊢; omega)
    simp [htail, List.replicate_succ]
    omega

/-- Helper: after `threshold` consecutive quota failures the breaker opens
until the last call's instant plus the cooldown. -/
theorem runCalls_quota_opens (p : RetryPolicy) (hmax : 0 < p.maxAttempts)
    (ts : List ℕ) (tN : ℕ) (hlen : ts.length + 1 = p.quotaThreshold) :
    runCalls p quotaNet ⟨0, 0⟩ (ts ++ [tN]) =
      (List.replicate p.quotaThreshold ⟨.quotaFailed, 1⟩,
       ⟨p.quotaThreshold, tN + p.cooldown⟩) := by
  have happend : ∀ (st : BreakerState) (l₁ l₂ : List ℕ),
      runCalls p quotaNet st (l₁ ++ l₂) =
        ((runCalls p quotaNet st l₁).1 ++
          (runCalls p quotaNet (runCalls p quotaNet st l₁).2 l₂).1,
         (runCalls p quotaNet (runCalls p quotaNet st l₁).2 l₂).2) := by
    intro st l₁ l₂
    induction l₁ generalizing st with
    | nil => simp [runCalls]
    | cons t l₁ ih => simp [runCalls, ih]
  rw [happend, runCalls_quota_below p hmax ts 0 (by omega)]
  have hlast : callBackend p ⟨ts.length, 0⟩ tN quotaNet =
      (⟨.quotaFailed, 1⟩, ⟨ts.length + 1, tN + p.cooldown⟩) := by
    unfold callBackend
    rw [if_neg (by simp [breakerOpen]), runAttempts_quota _ _ hmax]
    have hth : p.quotaThreshold ≤ ts.length + 1 := by omega
    simp [hth]
  simp only [Nat.zero_add, runCalls, hlast]
  rw [← hlen, ← List.replicate_succ']

/-- C4: after `N = quotaThreshold` consecutive `QuotaExceeded` results, a
subsequent `GenerativeBackend` call before the cooldown elapses is skipped
with zero network attempts, and the chat turn it belongs to is routed
straight to the FallbackAdvisor. -/
theorem circuitBreaker_skips (p : RetryPolicy) (ts : List ℕ) (tN t : ℕ)
    (store : ConvStore) (sid : ℕ) (query : String)
    (hmax : 0 < p.maxAttempts) (hlen : ts.length + 1 = p.quotaThreshold)
    (ht : t < tN + p.cooldown) :
    (runCalls p quotaNet ⟨0, 0⟩ (ts ++ [tN])).1 =
        List.replicate p.quotaThreshold ⟨.quotaFailed, 1⟩ ∧
      (callBackend p (runCalls p quotaNet ⟨0, 0⟩ (ts ++ [tN])).2 t quotaNet).1 =
        ⟨.skipped, 0⟩ ∧
      (runChatTurn p (runCalls p quotaNet ⟨0, 0⟩ (ts ++ [tN])).2 t quotaNet
          store sid query).1 = .fallback (fallbackAdvisor query).text := by
  rw [runCalls_quota_opens p hmax ts tN hlen]
  have hskip : callBackend p ⟨p.quotaThreshold, tN + p.cooldown⟩ t quotaNet =
      (⟨.skipped, 0⟩, ⟨p.quotaThreshold, tN + p.cooldown⟩) := by
    unfold callBackend
    rw [if_pos (by simp [breakerOpen]; exact ht)]
  refine ⟨rfl, by rw [hskip], ?_⟩
  unfold runChatTurn
  rw [hskip]

/-- C4 witness: threshold 2, cooldown 10 — two quota calls at instants 3 and
4, then a call at instant 13 is skipped and the turn falls back. -/
theorem circuitBreaker_skips_witness :
    (runCalls ⟨1, 2, 10⟩ quotaNet ⟨0, 0⟩ ([3] ++ [4])).1 =
        List.replicate 2 ⟨.quotaFailed, 1⟩ ∧
      (callBackend ⟨1, 2, 10⟩ (runCalls ⟨1, 2, 10⟩ quotaNet ⟨0, 0⟩
          ([3] ++ [4])).2 13 quotaNet).1 = ⟨.skipped, 0⟩ ∧
      (runChatTurn ⟨1, 2, 10⟩ (runCalls ⟨1, 2, 10⟩ quotaNet ⟨0, 0⟩
          ([3] ++ [4])).2 13 quotaNet emptyConvStore 0
          "How can I save more money?").1 =
        .fallback (fallbackAdvisor "How can I save more money?").text :=
  circuitBreaker_skips ⟨1, 2, 10⟩ [3] 4 13 emptyConvStore 0
    "How can I save more money?" (by decide) (by decide) (by decide)

/-- C6: every chat turn resolves to `SUCCESS` or to `FALLBACK` with the
FallbackAdvisor's (non-empty) text — generation-time failures never surface
as user-facing failures — and the turn is appended to the ConversationStore
(`RECORDED`) regardless of which path produced the text. -/
theorem chatTurn_resolves_and_records (p : RetryPolicy) (bst : BreakerState)
    (now : ℕ) (net : ℕ → ApiOutcome) (store : ConvStore) (sid : ℕ)
    (query : String) :
    ((∃ t, (runChatTurn p bst now net store sid query).1 = .success t) ∨
        ((runChatTurn p bst now net store sid query).1 =
            .fallback (fallbackAdvisor query).text ∧
          (fallbackAdvisor query).text ≠ "")) ∧
      history (runChatTurn p bst now net store sid query).2.1 sid =
        history store sid ++
          [⟨.user, query⟩,
           ⟨.assistant, replyOf (runChatTurn p bst now net store sid query).1⟩] := by
  constructor
  · unfold runChatTurn
    cases h : (callBackend p bst now net).1.outcome with
    | success t => exact Or.inl ⟨t, by simp [h]⟩
    | quotaFailed => exact Or.inr ⟨by simp [h], (fallback_nonempty query).1⟩
    | transientFailed => exact Or.inr ⟨by simp [h], (fallback_nonempty query).1⟩
    | fatalFailed => exact Or.inr ⟨by simp [h], (fallback_nonempty query).1⟩
    | skipped => exact Or.inr ⟨by simp [h], (fallback_nonempty query).1⟩
  · unfold runChatTurn
    simp [history, appendMsg]

/-- C9: the EmbeddingProvider is deterministic — two calls on the same text
and model version, whatever their ambient call contexts, return bit-identical
vectors of the fixed dimension `d`. -/
theorem embed_deterministic_fixed_dim (c₁ c₂ : CallCtx) (v : ℕ) (t : String) :
    embed c₁ v t = embed c₂ v t ∧ (embed c₁ v t).length = embedDim := by
  exact ⟨rfl, by simp [embed]⟩

/-- C10: sending is a no-op when the input message is blank (empty or
whitespace-only) or a previous request is still in flight — the component
state is unchanged and no chat request is issued. -/
theorem sendMessage_noop_when_blank_or_loading (st : ChatUiState) (now : ℕ)
    (docs : List String)
    (h : isBlank st.inputMessage = true ∨ st.isLoading = true) :
    handleSendMessage st now docs = (st, none) := by
  unfold handleSendMessage
  rw [if_pos h]

/-- C10 witness: a whitespace-only input issues no request and leaves the
state unchanged. -/
theorem sendMessage_noop_witness :
    handleSendMessage ⟨[], "   ", false⟩ 0 [] = (⟨[], "   ", false⟩, none) :=
  sendMessage_noop_when_blank_or_loading ⟨[], "   ", false⟩ 0 []
    (Or.inl (by decide))

end FinAdvisor
